import Mathlib

/-!
Verification development for the `file-picker` crate of the
`sync-google-photo` repository (src/file-picker/src/lib.rs).

The Rust code is embedded shallowly:

* `FileType`, `FilePicker` (its configuration fields), `entry_match`,
  `list_files_in_folder` and `TermThemeRenderer` are translated directly
  from `lib.rs`.
* Filesystem paths are modelled by `FsEntry`: one path together with the
  metadata the picker queries (`file_name`, `is_dir`, `extension`).
  Directory enumeration (`fs::read_dir`) is modelled as an input value:
  either an error (the directory cannot be opened) or the list of child
  read results (each child either an error or an entry).
* The key-dispatch `match` of `FilePicker::_interact_on` (lib.rs lines
  225-306) is translated arm by arm into `dispatchKey`; terminal writes
  become an explicit list of `TermEffect`s and the four possible loop
  outcomes become the `StepResult` sum.  Machine integers (`usize`,
  `u64`, `i64`) are modelled as `Nat`/`Int` with the casts and wrap
  points written out; the two division operators panic on a zero divisor
  in Rust, which is modelled by `RunError.divByZero`, and vector
  indexing out of bounds by `RunError.indexOutOfBounds`.
* The module `paging_copy` (struct `Paging`) is declared by `lib.rs` but
  its source file is not part of this tree; `Paging` below is therefore
  modelled from the specification (see the doc comments marked
  "Modelled from the spec").
-/

namespace FilePickerM

/-- usize::MAX on the 64-bit target; `!0` in the Rust source is this value. -/
def usizeMax : Nat := 2 ^ 64 - 1

/-- Reinterpretation of a `usize` value as `i64` (the `as i64` cast):
two's-complement wrap of an unsigned 64-bit value into a signed one. -/
def i64ofUsize (n : Nat) : Int :=
  if n < 2 ^ 63 then (n : Int) else (n : Int) - 2 ^ 64

/-- Reinterpretation of an `i64` value as `usize` (the `as usize` cast):
two's-complement wrap back to unsigned. -/
def usizeOfI64 (i : Int) : Nat := (i % 2 ^ 64).toNat

/-- `FileType` from lib.rs lines 10-15. -/
inductive FileType where
  | Folder : FileType
  | WithExtension : String → FileType
  | Any : FileType
deriving DecidableEq, Repr

/-- One filesystem path with the metadata the picker queries: `file_name()`
(`none` for paths such as `..` that have no final component), `is_dir()`
and `extension()`.  Stands for the `PathBuf` values of the source. -/
structure FsEntry where
  path : String
  file_name : Option String
  is_dir : Bool
  extension : Option String
deriving DecidableEq, Repr

/-- Configuration fields of the `FilePicker` struct (lib.rs lines 23-32);
the theme, being a pure formatting strategy, carries no state the claims
touch and is omitted. -/
structure FilePicker where
  file_type : FileType
  prompt : Option String
  report : Bool
  clear : Bool
  max_length : Option Nat
deriving DecidableEq, Repr

/-- `FilePicker::with_theme` defaults (lib.rs lines 369-379). -/
def FilePicker.with_theme (file_type : FileType) : FilePicker :=
  { file_type := file_type
    prompt := none
    report := false
    clear := true
    max_length := none }

/-- `FilePicker::max_length` builder (lib.rs lines 59-66): the stored bound
is the requested value plus two.  (Named `set_max_length` because the
structure already has a field of the source name.) -/
def FilePicker.set_max_length (p : FilePicker) (val : Nat) : FilePicker :=
  { p with max_length := some (val + 2) }

/-- `FilePicker::with_prompt` (lib.rs lines 87-91). -/
def FilePicker.with_prompt (p : FilePicker) (prompt : String) : FilePicker :=
  { p with prompt := some prompt, report := true }

/-- Character-wise lower-casing, modelling Rust `str::to_lowercase` on
extension strings; the two agree on ASCII extensions. -/
def toLowerStr (s : String) : String := String.mk (s.data.map Char.toLower)

/-- `entry_match` from lib.rs lines 320-339.  `os_ext.to_string_lossy().to_lowercase()`
is modelled by `toLowerStr`, and the Rust comparison
`extension.cmp(..) == Ordering::Equal` is string equality. -/
def entry_match (entry : FsEntry) (file_type : FileType) : Bool :=
  if entry.file_name.isNone then false
  else
    match file_type with
    | FileType.Folder => entry.is_dir
    | FileType.WithExtension extension =>
        entry.is_dir ||
          (entry.extension.filter (fun os_ext => extension == toLowerStr os_ext)).isSome
    | FileType.Any => true

/-- `FilePicker::list_files_in_folder` (lib.rs lines 341-346).  The
`fs::read_dir` call is the input: `Except.error` when the directory cannot
be opened, otherwise the list of per-child read results.  `filter_map`
with `content.ok()` drops unreadable children, then `entry_match` filters
the survivors. -/
def list_files_in_folder (read_dir : Except String (List (Except String FsEntry)))
    (file_type : FileType) : Except String (List FsEntry) :=
  match read_dir with
  | Except.error e => Except.error e
  | Except.ok contents =>
      Except.ok ((contents.filterMap Except.toOption).filter
        (fun entry => entry_match entry file_type))

/-- Display name of a listed entry (lib.rs lines 183-188):
`path.file_name().expect(..).to_string_lossy()`.  The `expect` cannot fire
on entries produced by `list_files_in_folder`, whose filter drops nameless
entries; the default stands for that impossible panic branch. -/
def entryName (e : FsEntry) : String := e.file_name.getD ""

/-- Ceiling division on naturals, `(n + c - 1) / c`; the page count of the
spec is `ceil(total_items / capacity)`. -/
def ceilNat (n c : Nat) : Nat := (n + c - 1) / c

/-- Modelled from the spec: the file `paging_copy.rs` (module `paging_copy`,
struct `Paging`) is declared by lib.rs line 8 but is not part of this
source tree.  Spec section 4.2 and the data model give its state:
capacity, current page, page count and the `active` flag. -/
structure Paging where
  capacity : Nat
  pages : Nat
  current_page : Nat
  active : Bool
deriving DecidableEq, Repr

/-- Modelled from the spec: `Paging::new` (call site lib.rs line 191).
"Capacity is either `max_length + 2` ... when a bound is configured, or
the terminal's current row count when unbounded.  `active = total_items >
capacity`; `page_count = ceil(total_items / capacity)`"; the widening by
two is performed by the `FilePicker::max_length` builder, so the stored
bound is used as is. -/
def Paging.new (term_rows : Nat) (items_len : Nat) (max_length : Option Nat) : Paging :=
  let capacity := max_length.getD term_rows
  { capacity := capacity
    pages := ceilNat items_len capacity
    current_page := 0
    active := decide (items_len > capacity) }

/-- Modelled from the spec: "update(selected_index): recompute
`current_page` so the given index is inside the visible window". -/
def Paging.update (p : Paging) (cursor_pos : Nat) : Paging :=
  if cursor_pos < p.current_page * p.capacity ∨
      (p.current_page + 1) * p.capacity ≤ cursor_pos then
    { p with current_page := cursor_pos / p.capacity }
  else p

/-- Modelled from the spec: "next_page(): advance `current_page` by one,
wrapping to 0 past the last page; returns the index of the first item on
the new page, becoming the new selection". -/
def Paging.next_page (p : Paging) : Nat × Paging :=
  let new_page := if p.pages ≤ p.current_page + 1 then 0 else p.current_page + 1
  (new_page * p.capacity, { p with current_page := new_page })

/-- Modelled from the spec: "previous_page(): symmetric, wrapping to the
last page". -/
def Paging.previous_page (p : Paging) : Nat × Paging :=
  let new_page := if p.current_page = 0 then p.pages - 1 else p.current_page - 1
  (new_page * p.capacity, { p with current_page := new_page })

/-- `TermThemeRenderer` state (lib.rs lines 382-399): the two line counters
and the latch flag; the terminal and theme handles carry no counted state. -/
structure TermThemeRenderer where
  height : Nat
  prompt_height : Nat
  prompts_reset_height : Bool
deriving DecidableEq, Repr

/-- `TermThemeRenderer::new` (lib.rs lines 391-399). -/
def TermThemeRenderer.new : TermThemeRenderer :=
  { height := 0, prompt_height := 0, prompts_reset_height := true }

/-- Number of newline characters in a written buffer
(`buf.chars().filter(|&x| x == '\n').count()`, lib.rs line 409). -/
def countNewlines (s : String) : Nat := (s.data.filter (fun c => c = '\x0a')).length

/-- `TermThemeRenderer::write_formatted_line` (lib.rs lines 401-411):
adds the buffer's newline count plus one to `height`. -/
def TermThemeRenderer.write_formatted_line (r : TermThemeRenderer) (buf : String) :
    TermThemeRenderer :=
  { r with height := r.height + countNewlines buf + 1 }

/-- `TermThemeRenderer::write_formatted_prompt` (lib.rs lines 413-425):
writes the line, then latches `height` into `prompt_height`. -/
def TermThemeRenderer.write_formatted_prompt (r : TermThemeRenderer) (buf : String) :
    TermThemeRenderer :=
  let r := r.write_formatted_line buf
  if r.prompts_reset_height then { r with prompt_height := r.height, height := 0 }
  else r

/-- `TermThemeRenderer::clear` (lib.rs lines 458-463): returns the number of
lines handed to `term.clear_last_lines` together with the new counter
state.  Note the source resets `height` only. -/
def TermThemeRenderer.clear (r : TermThemeRenderer) : Nat × TermThemeRenderer :=
  (r.height + r.prompt_height, { r with height := 0 })

/-- `TermThemeRenderer::clear_preserve_prompt` (lib.rs lines 465-477):
adds one erased line per item wider than the terminal. -/
def TermThemeRenderer.clear_preserve_prompt (r : TermThemeRenderer)
    (size_vec : List Nat) (term_cols : Nat) : Nat × TermThemeRenderer :=
  let new_height := r.height + (size_vec.filter (fun size => term_cols < size)).length
  (new_height, { r with height := 0 })

/-- Semantic keys of `console::Key` that the dispatch distinguishes. -/
inductive Key where
  | arrowDown | arrowUp | arrowLeft | arrowRight
  | tab | backTab | enter | escape
  | char : Char → Key
  | other
deriving DecidableEq, Repr

/-- Terminal side effects performed by one dispatch step, in program order. -/
inductive TermEffect where
  | renderClear : TermEffect
  | clearLastLines : Nat → TermEffect
  | promptSelection : String → String → TermEffect
  | showCursor : TermEffect
  | flush : TermEffect
deriving DecidableEq, Repr

/-- Panics the dispatch arithmetic can hit (Rust aborts the process;
the embedding surfaces them as errors). -/
inductive RunError where
  | divByZero
  | indexOutOfBounds
deriving DecidableEq, Repr

/-- Outcome of one key dispatch: keep looping with new state, restart the
outer loop in a subdirectory, or terminate with a selection /
cancellation. -/
inductive StepResult where
  | continueLoop : Nat → Paging → List TermEffect → StepResult
  | descend : FsEntry → List TermEffect → StepResult
  | selected : FsEntry → List TermEffect → StepResult
  | cancelled : List TermEffect → StepResult
deriving DecidableEq, Repr

/-- Decidable equality for `Except` results, so concrete dispatch
outcomes can be checked by evaluation. -/
instance exceptDecEq {ε α : Type} [DecidableEq ε] [DecidableEq α] :
    DecidableEq (Except ε α) := fun a b =>
  match a, b with
  | Except.ok x, Except.ok y =>
      if h : x = y then Decidable.isTrue (by rw [h]) else Decidable.isFalse (by simp [h])
  | Except.error x, Except.error y =>
      if h : x = y then Decidable.isTrue (by rw [h]) else Decidable.isFalse (by simp [h])
  | Except.ok _, Except.error _ => Decidable.isFalse (by simp)
  | Except.error _, Except.ok _ => Decidable.isFalse (by simp)

/-- Shared prefix of the Enter and Space arms (lib.rs lines 268-276 and
284-292): clear the frame when `self.clear` is set, then print the
confirmation line when a prompt is set and `report` is enabled. -/
def selectionEffects (p : FilePicker) (e : FsEntry) : List TermEffect :=
  (if p.clear then [TermEffect.renderClear] else []) ++
    (match p.prompt with
     | some prompt => if p.report then [TermEffect.promptSelection prompt (entryName e)] else []
     | none => [])

/-- ArrowDown / Tab / j arm (lib.rs lines 226-231).  The non-sentinel
branch is `(sel as u64 + 1).rem(filenames.len() as u64) as usize`: the
u64 addition wraps modulo 2^64 and `Rem::rem` panics on a zero divisor. -/
def downArm (sel len : Nat) (paging : Paging) : Except RunError StepResult :=
  if sel = usizeMax then Except.ok (StepResult.continueLoop 0 paging [])
  else if len = 0 then Except.error RunError.divByZero
  else Except.ok (StepResult.continueLoop (((sel + 1) % 2 ^ 64) % len) paging [])

/-- ArrowUp / BackTab / k arm (lib.rs lines 247-254).  The sentinel branch
is the usize subtraction `filenames.len() - 1` (release-profile wrap);
the other branch is `((sel as i64 - 1 + len as i64) % (len as i64)) as
usize`, where `%` on i64 is the truncated remainder (`Int.tmod`) and
panics on a zero divisor.  The i64 additions cannot overflow for any
vector that fits in memory and are modelled exactly. -/
def upArm (sel len : Nat) (paging : Paging) : Except RunError StepResult :=
  if sel = usizeMax then
    Except.ok (StepResult.continueLoop ((len + 2 ^ 64 - 1) % 2 ^ 64) paging [])
  else if i64ofUsize len = 0 then Except.error RunError.divByZero
  else
    Except.ok (StepResult.continueLoop
      (usizeOfI64 (Int.tmod (i64ofUsize sel - 1 + i64ofUsize len) (i64ofUsize len)))
      paging [])

/-- Escape / q arm (lib.rs lines 233-246). -/
def escapeArm (p : FilePicker) (allow_quit : Bool) (sel : Nat) (paging : Paging) :
    Except RunError StepResult :=
  if allow_quit then
    Except.ok (StepResult.cancelled
      ((if p.clear then [TermEffect.renderClear]
        else [TermEffect.clearLastLines paging.capacity]) ++
        [TermEffect.showCursor, TermEffect.flush]))
  else Except.ok (StepResult.continueLoop sel paging [])

/-- ArrowLeft / h arm (lib.rs lines 256-260). -/
def leftArm (sel : Nat) (paging : Paging) : Except RunError StepResult :=
  if paging.active then
    let r := paging.previous_page
    Except.ok (StepResult.continueLoop r.1 r.2 [])
  else Except.ok (StepResult.continueLoop sel paging [])

/-- ArrowRight / l arm (lib.rs lines 261-265). -/
def rightArm (sel : Nat) (paging : Paging) : Except RunError StepResult :=
  if paging.active then
    let r := paging.next_page
    Except.ok (StepResult.continueLoop r.1 r.2 [])
  else Except.ok (StepResult.continueLoop sel paging [])

/-- Enter arm (lib.rs lines 267-282); the guard `sel != !0` failing falls
through to the catch-all arm.  Both indexings, `filenames[sel]` and
`files_in_dir[sel]`, are at the same index of equal-length vectors, so a
single bounds check models both panics. -/
def enterArm (p : FilePicker) (files : List FsEntry) (sel : Nat) (paging : Paging) :
    Except RunError StepResult :=
  if sel = usizeMax then Except.ok (StepResult.continueLoop sel paging [])
  else
    match files.get? sel with
    | none => Except.error RunError.indexOutOfBounds
    | some e =>
        Except.ok (StepResult.selected e
          (selectionEffects p e ++ [TermEffect.showCursor, TermEffect.flush]))

/-- Space arm (lib.rs lines 283-304): as Enter, then descend when the
selected entry is a directory (with an unconditional extra frame clear)
and terminate otherwise. -/
def spaceArm (p : FilePicker) (files : List FsEntry) (sel : Nat) (paging : Paging) :
    Except RunError StepResult :=
  if sel = usizeMax then Except.ok (StepResult.continueLoop sel paging [])
  else
    match files.get? sel with
    | none => Except.error RunError.indexOutOfBounds
    | some e =>
        if e.is_dir then
          Except.ok (StepResult.descend e (selectionEffects p e ++ [TermEffect.renderClear]))
        else
          Except.ok (StepResult.selected e
            (selectionEffects p e ++ [TermEffect.showCursor, TermEffect.flush]))

/-- Key dispatch of `FilePicker::_interact_on` (lib.rs lines 225-306),
translated arm by arm; character keys are matched in the source order of
the arms.  Unhandled keys hit the catch-all arm and leave the state
unchanged. -/
def dispatchKey (p : FilePicker) (files : List FsEntry) (allow_quit : Bool)
    (sel : Nat) (paging : Paging) (key : Key) : Except RunError StepResult :=
  match key with
  | Key.arrowDown => downArm sel files.length paging
  | Key.tab => downArm sel files.length paging
  | Key.escape => escapeArm p allow_quit sel paging
  | Key.arrowUp => upArm sel files.length paging
  | Key.backTab => upArm sel files.length paging
  | Key.arrowLeft => leftArm sel paging
  | Key.arrowRight => rightArm sel paging
  | Key.enter => enterArm p files sel paging
  | Key.char c =>
      if c = 'j' then downArm sel files.length paging
      else if c = 'q' then escapeArm p allow_quit sel paging
      else if c = 'k' then upArm sel files.length paging
      else if c = 'h' then leftArm sel paging
      else if c = 'l' then rightArm sel paging
      else if c = ' ' then spaceArm p files sel paging
      else Except.ok (StepResult.continueLoop sel paging [])
  | Key.other => Except.ok (StepResult.continueLoop sel paging [])

/-- One inner-loop iteration after the key read: the dispatch followed by
`paging.update(sel)` (lib.rs line 308) on the keep-looping outcome. -/
def stepAndUpdate (p : FilePicker) (files : List FsEntry) (allow_quit : Bool)
    (sel : Nat) (paging : Paging) (key : Key) : Except RunError StepResult :=
  match dispatchKey p files allow_quit sel paging key with
  | Except.ok (StepResult.continueLoop s pg fx) =>
      Except.ok (StepResult.continueLoop s (pg.update s) fx)
  | r => r

/-- Invariant tying a paging state to the item count it was built for:
positive capacity, a current page inside the page range, and the page
count and active flag of the spec. -/
def PagingInv (N : Nat) (p : Paging) : Prop :=
  1 ≤ p.capacity ∧ p.current_page < p.pages ∧
    p.pages = ceilNat N p.capacity ∧ p.active = decide (N > p.capacity)

/-! Helper lemmas on the arithmetic of the embedding. -/

/-- The i64 reinterpretation of a non-zero in-range usize value is non-zero. -/
lemma i64ofUsize_ne_zero (len : Nat) (h1 : 1 ≤ len) (h2 : len ≤ usizeMax) :
    i64ofUsize len ≠ 0 := by
  unfold i64ofUsize usizeMax at *
  have h64 : (2 : Nat) ^ 64 = 18446744073709551616 := by norm_num
  have h63 : (2 : Nat) ^ 63 = 9223372036854775808 := by norm_num
  split <;> omega

/-- Closed form of the non-sentinel ArrowDown arm for an in-range selection. -/
lemma downArm_eq (sel len : Nat) (paging : Paging) (h1 : sel < len) (h2 : len ≤ usizeMax) :
    downArm sel len paging =
      Except.ok (StepResult.continueLoop ((sel + 1) % len) paging []) := by
  have h64 : (2 : Nat) ^ 64 = 18446744073709551616 := by norm_num
  have hsne : sel ≠ usizeMax := by unfold usizeMax at *; omega
  have hlen0 : len ≠ 0 := by omega
  unfold downArm
  rw [if_neg hsne, if_neg hlen0]
  have hlt : (sel + 1) % 2 ^ 64 = sel + 1 := by
    apply Nat.mod_eq_of_lt
    unfold usizeMax at h2
    omega
  rw [hlt]

/-- Closed form of the non-sentinel ArrowUp arm: for an in-range selection
the i64 round trip computes `(sel - 1 + len) mod len`, written Nat-safely
as `(sel + len - 1) % len`. -/
lemma upArm_eq (sel len : Nat) (paging : Paging) (h1 : sel < len) (h2 : len < 2 ^ 63) :
    upArm sel len paging =
      Except.ok (StepResult.continueLoop ((sel + len - 1) % len) paging []) := by
  have h64 : (2 : Nat) ^ 64 = 18446744073709551616 := by norm_num
  have h63 : (2 : Nat) ^ 63 = 9223372036854775808 := by norm_num
  have hs63 : sel < 2 ^ 63 := lt_trans h1 h2
  have hsne : sel ≠ usizeMax := by unfold usizeMax; omega
  have hsel : i64ofUsize sel = (sel : Int) := by unfold i64ofUsize; rw [if_pos hs63]
  have hlen : i64ofUsize len = (len : Int) := by unfold i64ofUsize; rw [if_pos h2]
  have hlen0 : i64ofUsize len ≠ 0 := by rw [hlen]; omega
  have harg : (sel : Int) - 1 + (len : Int) = ((sel + len - 1 : Nat) : Int) := by omega
  have hlt : (sel + len - 1) % len < len := Nat.mod_lt _ (by omega)
  unfold upArm
  rw [if_neg hsne, if_neg hlen0, hsel, hlen, harg, ← Int.ofNat_tmod]
  unfold usizeOfI64
  rw [Int.emod_eq_of_lt (Int.natCast_nonneg _) (by omega), Int.toNat_natCast]

/-- Characterization of `ceilNat` as the ceiling of the division. -/
lemma ceilNat_bounds (N C : Nat) (hC : 1 ≤ C) :
    N ≤ C * ceilNat N C ∧ C * ceilNat N C < N + C := by
  unfold ceilNat
  have h1 := Nat.div_add_mod (N + C - 1) C
  have h2 : (N + C - 1) % C < C := Nat.mod_lt _ hC
  omega

/-- A page index below the page count starts strictly inside the item range. -/
lemma page_start_lt (N C page : Nat) (hC : 1 ≤ C) (hp : page < ceilNat N C) :
    page * C < N := by
  have h1 := (ceilNat_bounds N C hC).2
  have h2 : (page + 1) * C ≤ ceilNat N C * C := Nat.mul_le_mul_right C hp
  have h3 : (page + 1) * C = page * C + C := by ring
  have h4 : C * ceilNat N C = ceilNat N C * C := Nat.mul_comm C _
  omega

/-- The page count is positive whenever there is at least one item. -/
lemma ceilNat_pos (N C : Nat) (hC : 1 ≤ C) (hN : 1 ≤ N) : 1 ≤ ceilNat N C := by
  rcases Nat.eq_zero_or_pos (ceilNat N C) with h | h
  · have := (ceilNat_bounds N C hC).1
    rw [h, Nat.mul_zero] at this
    omega
  · exact h

/-- `Paging.update` always lands on the page containing the given index. -/
lemma update_current_page (q : Paging) (sel : Nat) :
    (q.update sel).current_page = sel / q.capacity := by
  unfold Paging.update
  split
  · rfl
  · rename_i h
    push_neg at h
    exact (Nat.div_eq_of_lt_le h.1 h.2).symm

/-- `Paging.update` at an in-range index preserves the paging invariant. -/
lemma update_inv (N : Nat) (q : Paging) (sel : Nat) (h : PagingInv N q) (hs : sel < N) :
    PagingInv N (q.update sel) := by
  obtain ⟨hC, hcur, hpages, hact⟩ := h
  have hpage : sel / q.capacity < ceilNat N q.capacity := by
    have h1 : sel / q.capacity ≤ (N - 1) / q.capacity :=
      Nat.div_le_div_right (by omega)
    have h2 : (N - 1 + q.capacity) / q.capacity = (N - 1) / q.capacity + 1 :=
      Nat.add_div_right _ (by omega)
    have h3 : N - 1 + q.capacity = N + q.capacity - 1 := by omega
    rw [h3] at h2
    unfold ceilNat
    omega
  unfold Paging.update
  split
  · exact ⟨hC, by simpa using hpage.trans_eq hpages.symm, hpages, hact⟩
  · exact ⟨hC, hcur, hpages, hact⟩

/-- `Paging.previous_page` stays inside the page range and its returned
selection is an in-range index. -/
lemma prev_page_inv (N : Nat) (p : Paging) (h : PagingInv N p) :
    (p.previous_page).1 < N ∧ PagingInv N (p.previous_page).2 := by
  obtain ⟨hC, hcur, hpages, hact⟩ := h
  have hlt : (if p.current_page = 0 then p.pages - 1 else p.current_page - 1) < p.pages := by
    split <;> omega
  refine ⟨?_, ⟨hC, hlt, hpages, hact⟩⟩
  exact page_start_lt N p.capacity _ hC (hpages ▸ hlt)

/-- `Paging.next_page` stays inside the page range and its returned
selection is an in-range index. -/
lemma next_page_inv (N : Nat) (p : Paging) (h : PagingInv N p) :
    (p.next_page).1 < N ∧ PagingInv N (p.next_page).2 := by
  obtain ⟨hC, hcur, hpages, hact⟩ := h
  have hlt : (if p.pages ≤ p.current_page + 1 then 0 else p.current_page + 1) < p.pages := by
    split <;> omega
  refine ⟨?_, ⟨hC, hlt, hpages, hact⟩⟩
  exact page_start_lt N p.capacity _ hC (hpages ▸ hlt)

/-- Selections below a memory-realizable length are never the sentinel. -/
lemma sel_ne_sentinel (sel len : Nat) (hsel : sel < len) (h63 : len < 2 ^ 63) :
    sel ≠ usizeMax := by
  have h64 : (2 : Nat) ^ 64 = 18446744073709551616 := by norm_num
  have h63' : (2 : Nat) ^ 63 = 9223372036854775808 := by norm_num
  unfold usizeMax
  omega

/-- The ArrowDown arm keeps the selection in range and the paging state
untouched. -/
lemma downArm_preserves (sel len : Nat) (paging : Paging) (s : Nat) (pg : Paging)
    (fx : List TermEffect) (hsel : sel < len) (h63 : len < 2 ^ 63)
    (hinv : PagingInv len paging)
    (h : downArm sel len paging = Except.ok (StepResult.continueLoop s pg fx)) :
    s < len ∧ PagingInv len pg := by
  have h64 : (2 : Nat) ^ 64 = 18446744073709551616 := by norm_num
  have h63' : (2 : Nat) ^ 63 = 9223372036854775808 := by norm_num
  rw [downArm_eq sel len paging hsel (by unfold usizeMax; omega)] at h
  simp only [Except.ok.injEq, StepResult.continueLoop.injEq] at h
  obtain ⟨h1, h2, -⟩ := h
  subst h1; subst h2
  exact ⟨Nat.mod_lt _ (by omega), hinv⟩

/-- The ArrowUp arm keeps the selection in range and the paging state
untouched. -/
lemma upArm_preserves (sel len : Nat) (paging : Paging) (s : Nat) (pg : Paging)
    (fx : List TermEffect) (hsel : sel < len) (h63 : len < 2 ^ 63)
    (hinv : PagingInv len paging)
    (h : upArm sel len paging = Except.ok (StepResult.continueLoop s pg fx)) :
    s < len ∧ PagingInv len pg := by
  rw [upArm_eq sel len paging hsel h63] at h
  simp only [Except.ok.injEq, StepResult.continueLoop.injEq] at h
  obtain ⟨h1, h2, -⟩ := h
  subst h1; subst h2
  exact ⟨Nat.mod_lt _ (by omega), hinv⟩

/-- The Escape arm either terminates or leaves the state unchanged. -/
lemma escapeArm_preserves (p : FilePicker) (aq : Bool) (sel len : Nat) (paging : Paging)
    (s : Nat) (pg : Paging) (fx : List TermEffect) (hsel : sel < len)
    (hinv : PagingInv len paging)
    (h : escapeArm p aq sel paging = Except.ok (StepResult.continueLoop s pg fx)) :
    s < len ∧ PagingInv len pg := by
  unfold escapeArm at h
  split at h
  · simp at h
  · simp only [Except.ok.injEq, StepResult.continueLoop.injEq] at h
    obtain ⟨h1, h2, -⟩ := h
    subst h1; subst h2
    exact ⟨hsel, hinv⟩

/-- The ArrowLeft arm keeps the selection in range and preserves the
paging invariant. -/
lemma leftArm_preserves (sel len : Nat) (paging : Paging) (s : Nat) (pg : Paging)
    (fx : List TermEffect) (hsel : sel < len) (hinv : PagingInv len paging)
    (h : leftArm sel paging = Except.ok (StepResult.continueLoop s pg fx)) :
    s < len ∧ PagingInv len pg := by
  unfold leftArm at h
  split at h
  · simp only [Except.ok.injEq, StepResult.continueLoop.injEq] at h
    obtain ⟨h1, h2, -⟩ := h
    subst h1; subst h2
    exact prev_page_inv len paging hinv
  · simp only [Except.ok.injEq, StepResult.continueLoop.injEq] at h
    obtain ⟨h1, h2, -⟩ := h
    subst h1; subst h2
    exact ⟨hsel, hinv⟩

/-- The ArrowRight arm keeps the selection in range and preserves the
paging invariant. -/
lemma rightArm_preserves (sel len : Nat) (paging : Paging) (s : Nat) (pg : Paging)
    (fx : List TermEffect) (hsel : sel < len) (hinv : PagingInv len paging)
    (h : rightArm sel paging = Except.ok (StepResult.continueLoop s pg fx)) :
    s < len ∧ PagingInv len pg := by
  unfold rightArm at h
  split at h
  · simp only [Except.ok.injEq, StepResult.continueLoop.injEq] at h
    obtain ⟨h1, h2, -⟩ := h
    subst h1; subst h2
    exact next_page_inv len paging hinv
  · simp only [Except.ok.injEq, StepResult.continueLoop.injEq] at h
    obtain ⟨h1, h2, -⟩ := h
    subst h1; subst h2
    exact ⟨hsel, hinv⟩

/-- The Enter arm never loops on from an in-range selection: it selects
the entry at the selection index. -/
lemma enterArm_preserves (p : FilePicker) (files : List FsEntry) (sel : Nat)
    (paging : Paging) (s : Nat) (pg : Paging) (fx : List TermEffect)
    (hsel : sel < files.length) (h63 : files.length < 2 ^ 63)
    (h : enterArm p files sel paging = Except.ok (StepResult.continueLoop s pg fx)) :
    s < files.length ∧ PagingInv files.length pg := by
  unfold enterArm at h
  rw [if_neg (sel_ne_sentinel sel files.length hsel h63), List.get?_eq_get hsel] at h
  simp at h

/-- The Space arm never loops on from an in-range selection: it descends
or selects. -/
lemma spaceArm_preserves (p : FilePicker) (files : List FsEntry) (sel : Nat)
    (paging : Paging) (s : Nat) (pg : Paging) (fx : List TermEffect)
    (hsel : sel < files.length) (h63 : files.length < 2 ^ 63)
    (h : spaceArm p files sel paging = Except.ok (StepResult.continueLoop s pg fx)) :
    s < files.length ∧ PagingInv files.length pg := by
  unfold spaceArm at h
  rw [if_neg (sel_ne_sentinel sel files.length hsel h63), List.get?_eq_get hsel] at h
  cases hd : (files[sel]).is_dir <;> simp [hd] at h

/-- Every key dispatch that loops on keeps the selection in range and
preserves the paging invariant. -/
lemma dispatch_preserves (p : FilePicker) (files : List FsEntry) (aq : Bool)
    (sel : Nat) (paging : Paging) (key : Key)
    (hsel : sel < files.length) (h63 : files.length < 2 ^ 63)
    (hinv : PagingInv files.length paging) :
    ∀ s pg fx,
      dispatchKey p files aq sel paging key = Except.ok (StepResult.continueLoop s pg fx) →
        s < files.length ∧ PagingInv files.length pg := by
  intro s pg fx h
  cases key with
  | arrowDown => exact downArm_preserves sel files.length paging s pg fx hsel h63 hinv h
  | tab => exact downArm_preserves sel files.length paging s pg fx hsel h63 hinv h
  | escape => exact escapeArm_preserves p aq sel files.length paging s pg fx hsel hinv h
  | arrowUp => exact upArm_preserves sel files.length paging s pg fx hsel h63 hinv h
  | backTab => exact upArm_preserves sel files.length paging s pg fx hsel h63 hinv h
  | arrowLeft => exact leftArm_preserves sel files.length paging s pg fx hsel hinv h
  | arrowRight => exact rightArm_preserves sel files.length paging s pg fx hsel hinv h
  | enter => exact enterArm_preserves p files sel paging s pg fx hsel h63 h
  | other =>
      simp only [dispatchKey, Except.ok.injEq, StepResult.continueLoop.injEq] at h
      obtain ⟨h1, h2, -⟩ := h
      subst h1; subst h2
      exact ⟨hsel, hinv⟩
  | char c =>
      simp only [dispatchKey] at h
      split at h
      · exact downArm_preserves sel files.length paging s pg fx hsel h63 hinv h
      · split at h
        · exact escapeArm_preserves p aq sel files.length paging s pg fx hsel hinv h
        · split at h
          · exact upArm_preserves sel files.length paging s pg fx hsel h63 hinv h
          · split at h
            · exact leftArm_preserves sel files.length paging s pg fx hsel hinv h
            · split at h
              · exact rightArm_preserves sel files.length paging s pg fx hsel hinv h
              · split at h
                · exact spaceArm_preserves p files sel paging s pg fx hsel h63 h
                · simp only [Except.ok.injEq, StepResult.continueLoop.injEq] at h
                  obtain ⟨h1, h2, -⟩ := h
                  subst h1; subst h2
                  exact ⟨hsel, hinv⟩

/-- With a non-empty listing and an in-range selection, no key dispatch
can hit a panic: the arithmetic and the indexing are total. -/
lemma dispatch_total (p : FilePicker) (files : List FsEntry) (aq : Bool)
    (sel : Nat) (paging : Paging) (key : Key)
    (hsel : sel < files.length) (hmax : files.length ≤ usizeMax) :
    (dispatchKey p files aq sel paging key).isOk = true := by
  have h64 : (2 : Nat) ^ 64 = 18446744073709551616 := by norm_num
  have hsne : sel ≠ usizeMax := by unfold usizeMax at *; omega
  have hlen0 : files.length ≠ 0 := by omega
  have hup : (upArm sel files.length paging).isOk = true := by
    unfold upArm
    rw [if_neg hsne, if_neg (i64ofUsize_ne_zero files.length (by omega) hmax)]
    rfl
  have hdown : (downArm sel files.length paging).isOk = true := by
    unfold downArm
    rw [if_neg hsne, if_neg hlen0]
    rfl
  have henter : (enterArm p files sel paging).isOk = true := by
    unfold enterArm
    rw [if_neg hsne, List.get?_eq_get hsel]
    rfl
  have hspace : (spaceArm p files sel paging).isOk = true := by
    unfold spaceArm
    rw [if_neg hsne, List.get?_eq_get hsel]
    cases hd : (files[sel]).is_dir <;> simp [hd, Except.isOk, Except.toBool]
  have hescape : (escapeArm p aq sel paging).isOk = true := by
    unfold escapeArm
    split <;> rfl
  have hleft : (leftArm sel paging).isOk = true := by
    unfold leftArm
    split <;> rfl
  have hright : (rightArm sel paging).isOk = true := by
    unfold rightArm
    split <;> rfl
  cases key with
  | arrowDown => exact hdown
  | tab => exact hdown
  | escape => exact hescape
  | arrowUp => exact hup
  | backTab => exact hup
  | arrowLeft => exact hleft
  | arrowRight => exact hright
  | enter => exact henter
  | other => rfl
  | char c =>
      simp only [dispatchKey]
      split
      · exact hdown
      · split
        · exact hescape
        · split
          · exact hup
          · split
            · exact hleft
            · split
              · exact hright
              · split
                · exact hspace
                · rfl

/-! Concrete fixtures for scenario conjuncts, witnesses and the
counterexample. -/

def photoJPG : FsEntry := ⟨"Photo.JPG", some "Photo.JPG", false, some "JPG"⟩

def notesTxt : FsEntry := ⟨"notes.txt", some "notes.txt", false, some "txt"⟩

def subDir : FsEntry := ⟨"sub", some "sub", true, none⟩

def noName : FsEntry := ⟨"..", none, true, none⟩

def cfg0W : FilePicker := FilePicker.with_theme FileType.Any

def cfgPW : FilePicker := (FilePicker.with_theme FileType.Any).with_prompt "Pick a file"

def files5W : List FsEntry :=
  [⟨"a.txt", some "a.txt", false, some "txt"⟩,
   ⟨"b.txt", some "b.txt", false, some "txt"⟩,
   ⟨"c.txt", some "c.txt", false, some "txt"⟩,
   ⟨"d.txt", some "d.txt", false, some "txt"⟩,
   ⟨"e.txt", some "e.txt", false, some "txt"⟩]

def paging5W : Paging := Paging.new 24 files5W.length none

def files6W : List FsEntry := files5W ++ [subDir]

def paging6W : Paging := Paging.new 24 files6W.length none

def cfgB : FilePicker := (FilePicker.with_theme FileType.Any).set_max_length 10

def files30 : List FsEntry :=
  (List.range 30).map (fun i => ⟨Nat.repr i, some (Nat.repr i), false, none⟩)

def pagingB : Paging := Paging.new 24 files30.length cfgB.max_length

def pagingB1 : Paging := { capacity := 12, pages := 3, current_page := 1, active := true }

def rC7 : TermThemeRenderer := { height := 3, prompt_height := 2, prompts_reset_height := true }

/-! Claim theorems. -/

/-- C5: `Folder` keeps exactly the directory entries and excludes regular
files; `WithExtension ext` keeps every directory entry plus exactly the
file entries whose lower-cased extension equals `ext` (so "jpg" matches
"Photo.JPG" and all directories and excludes "notes.txt"); `Any` keeps
everything with a retrievable name; nameless entries are dropped under
every filter. -/
theorem c5_filter_semantics (e : FsEntry) (ext : String) :
    (entry_match e FileType.Folder = true ↔
      e.file_name.isSome = true ∧ e.is_dir = true) ∧
    (entry_match e (FileType.WithExtension ext) = true ↔
      e.file_name.isSome = true ∧
        (e.is_dir = true ∨ ∃ x, e.extension = some x ∧ ext = toLowerStr x)) ∧
    (entry_match e FileType.Any = e.file_name.isSome) ∧
    entry_match photoJPG (FileType.WithExtension "jpg") = true ∧
    entry_match subDir (FileType.WithExtension "jpg") = true ∧
    entry_match notesTxt (FileType.WithExtension "jpg") = false ∧
    entry_match subDir FileType.Folder = true ∧
    entry_match photoJPG FileType.Folder = false ∧
    (∀ ft, entry_match noName ft = false) := by
  obtain ⟨pa, fn, dir, ex⟩ := e
  refine ⟨?_, ?_, ?_, by decide, by decide, by decide, by decide, by decide, ?_⟩
  · cases fn <;> cases dir <;> simp [entry_match]
  · cases fn with
    | none => simp [entry_match]
    | some a =>
      cases dir with
      | true => simp [entry_match]
      | false =>
        cases ex with
        | none => simp [entry_match, Option.filter]
        | some x =>
          by_cases hx : ext = toLowerStr x <;>
            simp [entry_match, Option.filter, hx, beq_iff_eq]
  · cases fn <;> simp [entry_match]
  · intro ft
    cases ft <;> rfl

/-- C6: the listing fails exactly when the directory itself cannot be
opened; once it opens, unreadable child entries are silently skipped and
the listing of the remaining entries succeeds. -/
theorem c6_listing_error_handling (ft : FileType) (msg bad : String)
    (contents : List (Except String FsEntry)) :
    list_files_in_folder (Except.error msg) ft = Except.error msg ∧
    (list_files_in_folder (Except.ok contents) ft).isOk = true ∧
    list_files_in_folder (Except.ok (Except.error bad :: contents)) ft =
      list_files_in_folder (Except.ok contents) ft := by
  refine ⟨rfl, rfl, ?_⟩
  simp [list_files_in_folder, Except.toOption]

/-- C7 counterexample: the claim that `clear` resets both the item-height
counter and the prompt-height counter to 0 fails on the concrete renderer
state with `height = 3`, `prompt_height = 2`: after `clear` the prompt
height is still 2. -/
theorem c7_clear_counterexample :
    ¬ ((TermThemeRenderer.clear rC7).1 = rC7.height + rC7.prompt_height ∧
       (TermThemeRenderer.clear rC7).2.height = 0 ∧
       (TermThemeRenderer.clear rC7).2.prompt_height = 0) := by decide

/-- C7 amended: `clear` erases exactly `height + prompt_height` lines and
resets the item-height counter to 0; the prompt-height counter is left
unchanged (it is re-latched by the next prompt render). -/
theorem c7_clear_amended (r : TermThemeRenderer) :
    (TermThemeRenderer.clear r).1 = r.height + r.prompt_height ∧
    (TermThemeRenderer.clear r).2.height = 0 ∧
    (TermThemeRenderer.clear r).2.prompt_height = r.prompt_height :=
  ⟨rfl, rfl, rfl⟩

/-- C8: on the non-cancellable entry point (`interact_on`, which passes
`allow_quit = false`), Escape and q are silently ignored: selection and
paging are unchanged, no effect is emitted, and the loop continues; on
the cancellable entry point (`interact_on_opt`, `allow_quit = true`),
they clear the frame, restore the cursor and terminate cancelled, which
the caller surfaces as the empty/None result. -/
theorem c8_escape_quit_behavior (p : FilePicker) (files : List FsEntry)
    (sel : Nat) (paging : Paging) :
    dispatchKey p files false sel paging Key.escape =
      Except.ok (StepResult.continueLoop sel paging []) ∧
    dispatchKey p files false sel paging (Key.char 'q') =
      Except.ok (StepResult.continueLoop sel paging []) ∧
    dispatchKey p files true sel paging Key.escape =
      Except.ok (StepResult.cancelled
        ((if p.clear then [TermEffect.renderClear]
          else [TermEffect.clearLastLines paging.capacity]) ++
          [TermEffect.showCursor, TermEffect.flush])) ∧
    dispatchKey p files true sel paging (Key.char 'q') =
      Except.ok (StepResult.cancelled
        ((if p.clear then [TermEffect.renderClear]
          else [TermEffect.clearLastLines paging.capacity]) ++
          [TermEffect.showCursor, TermEffect.flush])) :=
  ⟨rfl, rfl, rfl, rfl⟩

/-- C3: with a configured bound, the effective paging capacity is the
bound plus two; for 30 files and `max_length = 10` the capacity is 12,
paging is active with 3 pages, and ArrowRight from page 0 moves to page 1
with the selection becoming index 12. -/
theorem c3_capacity_scenario :
    (∀ (p : FilePicker) (val rows n : Nat),
        (Paging.new rows n (FilePicker.set_max_length p val).max_length).capacity = val + 2) ∧
    files30.length = 30 ∧
    pagingB.capacity = 12 ∧
    pagingB.active = true ∧
    pagingB.pages = 3 ∧
    pagingB.current_page = 0 ∧
    dispatchKey cfgB files30 false 0 pagingB Key.arrowRight =
      Except.ok (StepResult.continueLoop 12 pagingB1 []) := by
  exact ⟨fun p val rows n => rfl, by decide, by decide, by decide, by decide,
    by decide, by decide⟩

/-- C1: with a non-empty entry list and a non-sentinel selection, Enter
clears the frame when clear-on-exit is set, prints a confirmation naming
the selected entry when a prompt was set and report is enabled, and
terminates with the selected entry regardless of whether it is a
directory (Enter never descends); Space behaves identically except that
on a directory it clears the frame and restarts the outer loop with that
directory. -/
theorem c1_enter_space_behavior (p : FilePicker) (files : List FsEntry) (aq : Bool)
    (sel : Nat) (paging : Paging) (e : FsEntry)
    (hsel : sel ≠ usizeMax) (hget : files.get? sel = some e) :
    dispatchKey p files aq sel paging Key.enter =
      Except.ok (StepResult.selected e
        (selectionEffects p e ++ [TermEffect.showCursor, TermEffect.flush])) ∧
    (e.is_dir = true →
      dispatchKey p files aq sel paging (Key.char ' ') =
        Except.ok (StepResult.descend e
          (selectionEffects p e ++ [TermEffect.renderClear]))) ∧
    (e.is_dir = false →
      dispatchKey p files aq sel paging (Key.char ' ') =
        dispatchKey p files aq sel paging Key.enter) ∧
    selectionEffects p e =
      (if p.clear then [TermEffect.renderClear] else []) ++
        (if p.prompt.isSome = true ∧ p.report = true then
          [TermEffect.promptSelection (p.prompt.getD "") (entryName e)] else []) := by
  have henter : dispatchKey p files aq sel paging Key.enter =
      Except.ok (StepResult.selected e
        (selectionEffects p e ++ [TermEffect.showCursor, TermEffect.flush])) := by
    show enterArm p files sel paging = _
    unfold enterArm
    rw [if_neg hsel, hget]
  have hspace : dispatchKey p files aq sel paging (Key.char ' ') =
      spaceArm p files sel paging := rfl
  refine ⟨henter, ?_, ?_, ?_⟩
  · intro hd
    rw [hspace]
    unfold spaceArm
    rw [if_neg hsel, hget]
    simp [hd]
  · intro hd
    rw [hspace, henter]
    unfold spaceArm
    rw [if_neg hsel, hget]
    simp [hd]
  · unfold selectionEffects
    cases hp : p.prompt <;> cases hr : p.report <;> simp

/-- C1 witness: on a six-entry listing whose last entry is a directory,
Space at selection 5 descends into it with the confirmation and clear
effects. -/
theorem c1_witness :
    ((5 : Nat) ≠ usizeMax ∧ files6W.get? 5 = some subDir ∧ subDir.is_dir = true) ∧
    dispatchKey cfgPW files6W false 5 paging6W (Key.char ' ') =
      Except.ok (StepResult.descend subDir
        (selectionEffects cfgPW subDir ++ [TermEffect.renderClear])) := by
  refine ⟨⟨by decide, by decide, by decide⟩, ?_⟩
  exact (c1_enter_space_behavior cfgPW files6W false 5 paging6W subDir (by decide)
    (by decide)).2.1 (by decide)

/-- C2: from the sentinel, Down yields index 0 and Up yields index N-1;
from a concrete index i, Down yields (i+1) mod N and Up yields
(i-1+N) mod N, so Down from N-1 wraps to 0 and Up from 0 wraps to N-1;
Tab/j alias Down and BackTab/k alias Up. -/
theorem c2_down_up_wraparound (p : FilePicker) (files : List FsEntry) (aq : Bool)
    (paging : Paging) :
    (∀ sel,
      dispatchKey p files aq sel paging Key.tab =
        dispatchKey p files aq sel paging Key.arrowDown ∧
      dispatchKey p files aq sel paging (Key.char 'j') =
        dispatchKey p files aq sel paging Key.arrowDown ∧
      dispatchKey p files aq sel paging Key.backTab =
        dispatchKey p files aq sel paging Key.arrowUp ∧
      dispatchKey p files aq sel paging (Key.char 'k') =
        dispatchKey p files aq sel paging Key.arrowUp) ∧
    (1 ≤ files.length → files.length ≤ usizeMax →
      dispatchKey p files aq usizeMax paging Key.arrowDown =
        Except.ok (StepResult.continueLoop 0 paging []) ∧
      dispatchKey p files aq usizeMax paging Key.arrowUp =
        Except.ok (StepResult.continueLoop (files.length - 1) paging [])) ∧
    (∀ i, i < files.length → files.length < 2 ^ 63 →
      dispatchKey p files aq i paging Key.arrowDown =
        Except.ok (StepResult.continueLoop ((i + 1) % files.length) paging []) ∧
      dispatchKey p files aq i paging Key.arrowUp =
        Except.ok (StepResult.continueLoop
          ((i + files.length - 1) % files.length) paging [])) ∧
    (2 ≤ files.length → files.length < 2 ^ 63 →
      dispatchKey p files aq (files.length - 1) paging Key.arrowDown =
        Except.ok (StepResult.continueLoop 0 paging []) ∧
      dispatchKey p files aq 0 paging Key.arrowUp =
        Except.ok (StepResult.continueLoop (files.length - 1) paging [])) := by
  have h64 : (2 : Nat) ^ 64 = 18446744073709551616 := by norm_num
  have h63 : (2 : Nat) ^ 63 = 9223372036854775808 := by norm_num
  have hmain : ∀ i, i < files.length → files.length < 2 ^ 63 →
      dispatchKey p files aq i paging Key.arrowDown =
        Except.ok (StepResult.continueLoop ((i + 1) % files.length) paging []) ∧
      dispatchKey p files aq i paging Key.arrowUp =
        Except.ok (StepResult.continueLoop
          ((i + files.length - 1) % files.length) paging []) := by
    intro i hi hlen
    constructor
    · show downArm i files.length paging = _
      rw [downArm_eq i files.length paging hi (by unfold usizeMax; omega)]
    · show upArm i files.length paging = _
      rw [upArm_eq i files.length paging hi hlen]
  refine ⟨fun sel => ⟨rfl, rfl, rfl, rfl⟩, ?_, hmain, ?_⟩
  · intro h1 h2
    unfold usizeMax at h2
    constructor
    · show downArm usizeMax files.length paging = _
      unfold downArm
      rw [if_pos rfl]
    · show upArm usizeMax files.length paging = _
      unfold upArm
      rw [if_pos rfl]
      have hmod : (files.length + 2 ^ 64 - 1) % 2 ^ 64 = files.length - 1 := by omega
      rw [hmod]
  · intro h2 hlen
    have ha := (hmain (files.length - 1) (by omega) hlen).1
    have hb := (hmain 0 (by omega) hlen).2
    constructor
    · rw [ha]
      have hmod : (files.length - 1 + 1) % files.length = 0 := by
        rw [Nat.sub_add_cancel (by omega)]
        exact Nat.mod_self _
      rw [hmod]
    · rw [hb]
      have hmod : (0 + files.length - 1) % files.length = files.length - 1 := by
        rw [Nat.zero_add]
        exact Nat.mod_eq_of_lt (by omega)
      rw [hmod]

/-- C2 witness: on a five-entry listing, Down from the sentinel selects
index 0, Down from index 4 wraps to 0, and Up from index 0 wraps to 4. -/
theorem c2_witness :
    (1 ≤ files5W.length ∧ files5W.length ≤ usizeMax ∧
      files5W.length < 2 ^ 63 ∧ 2 ≤ files5W.length) ∧
    dispatchKey cfg0W files5W false usizeMax paging5W Key.arrowDown =
      Except.ok (StepResult.continueLoop 0 paging5W []) ∧
    dispatchKey cfg0W files5W false 4 paging5W Key.arrowDown =
      Except.ok (StepResult.continueLoop 0 paging5W []) ∧
    dispatchKey cfg0W files5W false 0 paging5W Key.arrowUp =
      Except.ok (StepResult.continueLoop 4 paging5W []) := by
  refine ⟨⟨by decide, by decide, by decide, by decide⟩, ?_, ?_, ?_⟩
  · exact ((c2_down_up_wraparound cfg0W files5W false paging5W).2.1
      (by decide) (by decide)).1
  · exact ((c2_down_up_wraparound cfg0W files5W false paging5W).2.2.2
      (by decide) (by decide)).1
  · exact ((c2_down_up_wraparound cfg0W files5W false paging5W).2.2.2
      (by decide) (by decide)).2

/-- C4: a paging state constructed for N items and capacity C at least 1
is active exactly when N exceeds C, its page count is the ceiling of N/C
(characterized by the two bounds), and after an update the current page
is the floor of the selection index over C. -/
theorem c4_paging_construction (rows N : Nat) (ml : Option Nat)
    (hC : 1 ≤ ml.getD rows) :
    ((Paging.new rows N ml).active = true ↔ ml.getD rows < N) ∧
    (Paging.new rows N ml).pages = ceilNat N (ml.getD rows) ∧
    N ≤ ml.getD rows * ceilNat N (ml.getD rows) ∧
    ml.getD rows * ceilNat N (ml.getD rows) < N + ml.getD rows ∧
    (∀ (q : Paging) (sel : Nat), q.capacity = ml.getD rows →
      (Paging.update q sel).current_page = sel / ml.getD rows) := by
  refine ⟨?_, rfl, (ceilNat_bounds N _ hC).1, (ceilNat_bounds N _ hC).2, ?_⟩
  · simp [Paging.new]
  · intro q sel hq
    rw [← hq]
    exact update_current_page q sel

/-- C4 witness: instantiated at 30 items and capacity 12 (page count 3,
active), with an update landing on page 2 for index 30. -/
theorem c4_witness :
    (1 ≤ (some 12 : Option Nat).getD 24) ∧
    ((Paging.new 24 30 (some 12)).active = true ↔ (some 12 : Option Nat).getD 24 < 30) ∧
    (Paging.new 24 30 (some 12)).pages = ceilNat 30 ((some 12 : Option Nat).getD 24) ∧
    (Paging.update (Paging.new 24 30 (some 12)) 30).current_page =
      30 / (some 12 : Option Nat).getD 24 := by
  refine ⟨by decide, ?_, ?_, ?_⟩
  · exact (c4_paging_construction 24 30 (some 12) (by decide)).1
  · exact (c4_paging_construction 24 30 (some 12) (by decide)).2.1
  · exact (c4_paging_construction 24 30 (some 12) (by decide)).2.2.2.2
      (Paging.new 24 30 (some 12)) 30 rfl

/-- C9: on an empty filtered listing the dispatch arithmetic is partial:
Down and Up (and their aliases) hit a remainder by zero, and Enter and
Space (whose sentinel guard is satisfied by the initial selection 0)
index the entry vector out of bounds; with a non-empty listing and an
in-range selection every key dispatch is total. -/
theorem c9_empty_listing_partiality (p : FilePicker) (aq : Bool) (paging : Paging) :
    (dispatchKey p [] aq 0 paging Key.arrowDown = Except.error RunError.divByZero ∧
     dispatchKey p [] aq 0 paging Key.tab = Except.error RunError.divByZero ∧
     dispatchKey p [] aq 0 paging (Key.char 'j') = Except.error RunError.divByZero ∧
     dispatchKey p [] aq 0 paging Key.arrowUp = Except.error RunError.divByZero ∧
     dispatchKey p [] aq 0 paging Key.backTab = Except.error RunError.divByZero ∧
     dispatchKey p [] aq 0 paging (Key.char 'k') = Except.error RunError.divByZero ∧
     dispatchKey p [] aq 0 paging Key.enter = Except.error RunError.indexOutOfBounds ∧
     dispatchKey p [] aq 0 paging (Key.char ' ') = Except.error RunError.indexOutOfBounds) ∧
    (∀ (files : List FsEntry) (sel : Nat) (key : Key),
      sel < files.length → files.length ≤ usizeMax →
      (dispatchKey p files aq sel paging key).isOk = true) := by
  have hdown : downArm 0 (List.length ([] : List FsEntry)) paging =
      Except.error RunError.divByZero := by
    unfold downArm
    rw [if_neg (by decide), if_pos (show List.length ([] : List FsEntry) = 0 from rfl)]
  have hup : upArm 0 (List.length ([] : List FsEntry)) paging =
      Except.error RunError.divByZero := by
    unfold upArm
    rw [if_neg (by decide), if_pos (by decide)]
  have henter : enterArm p [] 0 paging = Except.error RunError.indexOutOfBounds := by
    unfold enterArm
    rw [if_neg (by decide)]
    rfl
  have hspace : spaceArm p [] 0 paging = Except.error RunError.indexOutOfBounds := by
    unfold spaceArm
    rw [if_neg (by decide)]
    rfl
  exact ⟨⟨hdown, hdown, hdown, hup, hup, hup, henter, hspace⟩,
    fun files sel key h1 h2 => dispatch_total p files aq sel paging key h1 h2⟩

/-- C9 witness: the totality part applied to a five-entry listing at
selection 0 with the Enter key. -/
theorem c9_witness :
    (0 < files5W.length ∧ files5W.length ≤ usizeMax) ∧
    (dispatchKey cfg0W files5W true 0 paging5W Key.enter).isOk = true :=
  ⟨⟨by decide, by decide⟩,
    (c9_empty_listing_partiality cfg0W true paging5W).2 files5W 0 Key.enter
      (by decide) (by decide)⟩

/-- C10: over a non-empty listing the selection starts at 0, stays in
[0, N) across every dispatched key followed by the paging update, never
equals the sentinel (so the sentinel branches of Down/Up are dead), and
the very first Enter or Space acts on the first listed entry instead of
being ignored. -/
theorem c10_selection_invariant (p : FilePicker) (files : List FsEntry) (aq : Bool)
    (sel : Nat) (paging : Paging)
    (hN : 1 ≤ files.length) (h63 : files.length < 2 ^ 63)
    (hsel : sel < files.length) (hinv : PagingInv files.length paging) :
    sel ≠ usizeMax ∧
    (∀ rows, 1 ≤ p.max_length.getD rows →
      PagingInv files.length (Paging.new rows files.length p.max_length)) ∧
    (∀ (key : Key) (s : Nat) (pg : Paging) (fx : List TermEffect),
      stepAndUpdate p files aq sel paging key =
          Except.ok (StepResult.continueLoop s pg fx) →
        s < files.length ∧ s ≠ usizeMax ∧ PagingInv files.length pg) ∧
    (∀ e, files.get? 0 = some e →
      dispatchKey p files aq 0 paging Key.enter =
        Except.ok (StepResult.selected e
          (selectionEffects p e ++ [TermEffect.showCursor, TermEffect.flush])) ∧
      dispatchKey p files aq 0 paging (Key.char ' ') =
        Except.ok (if e.is_dir = true then
          StepResult.descend e (selectionEffects p e ++ [TermEffect.renderClear])
        else
          StepResult.selected e
            (selectionEffects p e ++ [TermEffect.showCursor, TermEffect.flush]))) := by
  refine ⟨sel_ne_sentinel sel files.length hsel h63, ?_, ?_, ?_⟩
  · intro rows hcap
    exact ⟨hcap, ceilNat_pos files.length _ hcap hN, rfl, rfl⟩
  · intro key s pg fx h
    unfold stepAndUpdate at h
    cases hd : dispatchKey p files aq sel paging key with
    | error err => rw [hd] at h; simp at h
    | ok res =>
      cases res with
      | continueLoop s0 pg0 fx0 =>
        rw [hd] at h
        simp only [Except.ok.injEq, StepResult.continueLoop.injEq] at h
        obtain ⟨hs, hpg, -⟩ := h
        have hpres := dispatch_preserves p files aq sel paging key hsel h63 hinv
          s0 pg0 fx0 hd
        subst hs; subst hpg
        exact ⟨hpres.1, sel_ne_sentinel s0 files.length hpres.1 h63,
          update_inv files.length pg0 s0 hpres.2 hpres.1⟩
      | descend e fx0 => rw [hd] at h; simp at h
      | selected e fx0 => rw [hd] at h; simp at h
      | cancelled fx0 => rw [hd] at h; simp at h
  · intro e he
    have h0 : (0 : Nat) ≠ usizeMax := by decide
    constructor
    · show enterArm p files 0 paging = _
      unfold enterArm
      rw [if_neg h0, he]
    · show spaceArm p files 0 paging = _
      unfold spaceArm
      rw [if_neg h0, he]
      cases hd : e.is_dir <;> simp [hd]

/-- C10 witness: on a five-entry listing with selection 2, ArrowDown
followed by the paging update lands on selection 3, still in range and
invariant-preserving. -/
theorem c10_witness :
    (1 ≤ files5W.length ∧ files5W.length < 2 ^ 63 ∧ 2 < files5W.length ∧
      PagingInv files5W.length paging5W) ∧
    (3 < files5W.length ∧ (3 : Nat) ≠ usizeMax ∧
      PagingInv files5W.length (Paging.update paging5W 3)) := by
  have hinv : PagingInv files5W.length paging5W :=
    ⟨by decide, by decide, by decide, by decide⟩
  refine ⟨⟨by decide, by decide, by decide, hinv⟩, ?_⟩
  exact (c10_selection_invariant cfg0W files5W false 2 paging5W (by decide) (by decide)
    (by decide) hinv).2.2.1 Key.arrowDown 3 (Paging.update paging5W 3) [] (by decide)

end FilePickerM
